import Mathlib

/-!
Verification of the shared data-preparation, filtering and aggregation core of a
YouTube-comment sentiment dashboard (an interactive app and a batch chart
script).  The Python source operates on pandas data frames; here a comment
record is a `Row` of explicit optional fields (pandas NaN/NaT becomes `none`),
a table is a `List Row` in file order, instants are integer seconds since the
epoch, calendar dates are integer day numbers, and percentages are rationals.
Pandas facts baked into the embedding, checked against its semantics:
`series == value` is `False` on NaN, `groupby`/`crosstab` drop rows whose key
is NaN, `groupby` sorts its keys ascending, and `value_counts` drops NaN.
-/

structure Row where
  author : Option String := none
  clean_text : Option String := none
  published_at : Option Int := none
  likes : Option Int := none
  topic_label : Option String := none
  sentiment_label : Option String := none
  sentiment_score : Option ℚ := none
  date : Option Int := none
deriving DecidableEq, Repr

/-! ## Loader (app.py load_data, generate_charts.py load_data)

The CSV parser and `pd.to_datetime` are external trusted capabilities; the
loader is modelled over an abstract lenient parser `parse` that returns the
UTC instant of a raw `published_at` string, or `none` when the value is
unparseable (`errors="coerce"`).  The raw column is `some vs` when the CSV has
a `published_at` column (one optional raw cell per row) and `none` when the
column is absent. -/

/-- Dropping time-of-day from a UTC instant: floor division by 86400 seconds
(`.dt.date` on a UTC-normalized timestamp). -/
def dateOfInstant (t : Int) : Int := Int.fdiv t 86400

/-- The parsed `published_at` column: `none` when the raw column is absent,
otherwise each cell parsed leniently (unparseable cells become `none`). -/
def loadPublished (parse : String → Option Int) (col : Option (List (Option String))) :
    Option (List (Option Int)) :=
  col.map (List.map (fun v => v.bind parse))

/-- The derived `date` column for a table of `n` rows: all-`none` when the raw
`published_at` column is absent, otherwise the UTC calendar date of each
parsed instant. -/
def loadDates (parse : String → Option Int) (col : Option (List (Option String)))
    (n : Nat) : List (Option Int) :=
  match col with
  | none => List.replicate n none
  | some vs => vs.map (fun v => (v.bind parse).map dateOfInstant)

/-! ## Filter engine (app.py lines 62-74) -/

/-- The date mask `(date >= lo) & (date <= hi)`; a NaN date compares `False`
on both sides, so rows with an absent date are dropped. -/
def keepDate (lo hi : Int) (r : Row) : Bool :=
  match r.date with
  | none => false
  | some d => decide (lo ≤ d) && decide (d ≤ hi)

/-- The date-range filter: skipped entirely when no concrete range is supplied
(`if start_date and end_date`), otherwise the inclusive-bounds mask. -/
def applyDateFilter (range : Option (Int × Int)) (rows : List Row) : List Row :=
  match range with
  | none => rows
  | some (lo, hi) => rows.filter (keepDate lo hi)

/-- The sidebar filters applied in source order: topic equality (when not
"All", modelled as `some t` vs `none`), then sentiment equality, then the
date range. -/
def applyFilters (topic sentiment : Option String) (range : Option (Int × Int))
    (rows : List Row) : List Row :=
  let f1 := match topic with
    | none => rows
    | some t => rows.filter (fun r => r.topic_label == some t)
  let f2 := match sentiment with
    | none => f1
    | some s => f1.filter (fun r => r.sentiment_label == some s)
  applyDateFilter range f2

/-- A single row predicate equivalent to the conjunction of all supplied
criteria, used to state that the engine is a logical AND. -/
def rowMatches (topic sentiment : Option String) (range : Option (Int × Int))
    (r : Row) : Bool :=
  (match topic with | none => true | some t => r.topic_label == some t) &&
  (match sentiment with | none => true | some s => r.sentiment_label == some s) &&
  (match range with | none => true | some (lo, hi) => keepDate lo hi r)

/-! ## Summary metrics (app.py lines 86-96) -/

/-- Total comments metric: the filtered row count. -/
def summaryTotal (rows : List Row) : Nat := rows.length

/-- Count of rows whose `sentiment_label` equals the given label; a NaN label
never equals a string, so absent labels are in no numerator. -/
def countLabel (lbl : String) (rows : List Row) : Nat :=
  rows.countP (fun r => r.sentiment_label == some lbl)

/-- Positive percentage: `(filtered["sentiment_label"] == "POSITIVE").mean() * 100`
when the table is nonempty, `0.0` otherwise. -/
def pos_pct (rows : List Row) : ℚ :=
  if rows.length > 0 then (countLabel "POSITIVE" rows : ℚ) / (rows.length : ℚ) * 100
  else 0

/-- Negative percentage, symmetric to `pos_pct`. -/
def neg_pct (rows : List Row) : ℚ :=
  if rows.length > 0 then (countLabel "NEGATIVE" rows : ℚ) / (rows.length : ℚ) * 100
  else 0

/-! ### Helper lemmas -/

lemma applyFilters_eq_filter (topic sentiment : Option String)
    (range : Option (Int × Int)) (rows : List Row) :
    applyFilters topic sentiment range rows
      = rows.filter (rowMatches topic sentiment range) := by
  unfold applyFilters applyDateFilter rowMatches
  cases topic <;> cases sentiment <;> rcases range with _ | ⟨lo, hi⟩ <;>
    simp [List.filter_filter, Bool.and_comm, Bool.and_left_comm, Bool.and_assoc]

lemma countLabel_add_le (rows : List Row) :
    countLabel "POSITIVE" rows + countLabel "NEGATIVE" rows ≤ rows.length := by
  induction rows with
  | nil => simp [countLabel]
  | cons r t ih =>
    simp only [countLabel, List.countP_cons, List.length_cons] at ih ⊢
    by_cases hp : r.sentiment_label = some "POSITIVE"
    · simp [hp]; omega
    · by_cases hn : r.sentiment_label = some "NEGATIVE" <;> simp [hp, hn] <;> omega

lemma countLabel_add_eq (rows : List Row)
    (h : ∀ r ∈ rows, r.sentiment_label = some "POSITIVE" ∨
        r.sentiment_label = some "NEGATIVE") :
    countLabel "POSITIVE" rows + countLabel "NEGATIVE" rows = rows.length := by
  induction rows with
  | nil => simp [countLabel]
  | cons r t ih =>
    have ht := ih (fun x hx => h x (List.mem_cons_of_mem r hx))
    have hr := h r (List.mem_cons_self r t)
    simp only [countLabel, List.countP_cons, List.length_cons] at ht ⊢
    rcases hr with hp | hn
    · simp [hp]; omega
    · have hp : r.sentiment_label ≠ some "POSITIVE" := by simp [hn]
      simp [hp, hn]; omega

/-! ### C1 -/

/-- C1: the summary-metrics view returns total = row count, positive and
negative percentages `count(label) / total * 100` (absent labels count in the
denominator, in neither numerator), both `0` when total is zero; their sum is
at most `100`, with equality when total is positive and every label is
POSITIVE or NEGATIVE. -/
theorem summary_metrics_spec (rows : List Row) :
    summaryTotal rows = rows.length ∧
    (rows.length = 0 → pos_pct rows = 0 ∧ neg_pct rows = 0) ∧
    (0 < rows.length →
      pos_pct rows = (countLabel "POSITIVE" rows : ℚ) / (rows.length : ℚ) * 100 ∧
      neg_pct rows = (countLabel "NEGATIVE" rows : ℚ) / (rows.length : ℚ) * 100) ∧
    pos_pct rows + neg_pct rows ≤ 100 ∧
    (0 < rows.length →
      (∀ r ∈ rows, r.sentiment_label = some "POSITIVE" ∨
          r.sentiment_label = some "NEGATIVE") →
      pos_pct rows + neg_pct rows = 100) := by
  refine ⟨rfl, ?_, ?_, ?_, ?_⟩
  · intro h; simp [pos_pct, neg_pct, h]
  · intro h; simp [pos_pct, neg_pct, h]
  · by_cases h : 0 < rows.length
    · have hle := countLabel_add_le rows
      have hlen : (0 : ℚ) < (rows.length : ℚ) := by exact_mod_cast h
      simp only [pos_pct, neg_pct, if_pos h]
      rw [div_mul_eq_mul_div, div_mul_eq_mul_div, div_add_div_same, div_le_iff₀ hlen]
      have : ((countLabel "POSITIVE" rows : ℚ) + (countLabel "NEGATIVE" rows : ℚ))
          ≤ (rows.length : ℚ) := by exact_mod_cast hle
      nlinarith
    · simp only [pos_pct, neg_pct, if_neg h]; norm_num
  · intro h hall
    have heq := countLabel_add_eq rows hall
    have hlen : (0 : ℚ) < (rows.length : ℚ) := by exact_mod_cast h
    simp only [pos_pct, neg_pct, if_pos h]
    rw [div_mul_eq_mul_div, div_mul_eq_mul_div, div_add_div_same, div_eq_iff (ne_of_gt hlen)]
    have : ((countLabel "POSITIVE" rows : ℚ) + (countLabel "NEGATIVE" rows : ℚ))
        = (rows.length : ℚ) := by exact_mod_cast heq
    nlinarith

/-- C1 witness: on a concrete two-row table (one POSITIVE, one NEGATIVE) the
hypotheses hold and the percentages sum to 100. -/
theorem summary_metrics_spec_witness :
    pos_pct [{ sentiment_label := some "POSITIVE" }, { sentiment_label := some "NEGATIVE" }]
      + neg_pct [{ sentiment_label := some "POSITIVE" }, { sentiment_label := some "NEGATIVE" }]
      = 100 := by
  have h := summary_metrics_spec
    [{ sentiment_label := some "POSITIVE" }, { sentiment_label := some "NEGATIVE" }]
  exact h.2.2.2.2 (by decide) (by decide)

/-! ### C2 -/

/-- C2: the filter engine returns exactly the rows satisfying all supplied
criteria (logical AND); the "All" sentinel (`none`) passes every row
including rows with absent labels; the filtered count never exceeds the
unfiltered count, and is zero when no row satisfies all criteria. -/
theorem filter_engine_spec (topic sentiment : Option String)
    (range : Option (Int × Int)) (rows : List Row) :
    applyFilters topic sentiment range rows
      = rows.filter (rowMatches topic sentiment range) ∧
    applyFilters none none none rows = rows ∧
    (applyFilters topic sentiment range rows).length ≤ rows.length ∧
    ((∀ r ∈ rows, rowMatches topic sentiment range r = false) →
      applyFilters topic sentiment range rows = []) ∧
    (∀ r, r ∈ applyFilters topic sentiment range rows ↔
      r ∈ rows ∧ rowMatches topic sentiment range r = true) := by
  have he := applyFilters_eq_filter topic sentiment range rows
  refine ⟨he, rfl, ?_, ?_, ?_⟩
  · rw [he]; exact List.length_filter_le _ _
  · intro h
    rw [he]
    refine List.filter_eq_nil_iff.mpr (fun a ha => ?_)
    simp [h a ha]
  · intro r
    rw [he, List.mem_filter]

/-- C2 witness: with a topic criterion matching no row, the concrete filtered
table is empty. -/
theorem filter_engine_spec_witness :
    applyFilters (some "X") none none [{ topic_label := some "A" }] = [] :=
  (filter_engine_spec (some "X") none none [{ topic_label := some "A" }]).2.2.2.1
    (by intro r hr; simp at hr; subst hr; rfl)

/-! ### C5 -/

/-- C5: with a concrete inclusive range the date filter keeps exactly the
rows whose date is present and within bounds (absent-date rows are excluded);
with no range supplied it is a no-op passing all rows unchanged. -/
theorem date_range_filter_spec (lo hi : Int) (rows : List Row) :
    applyDateFilter none rows = rows ∧
    applyDateFilter (some (lo, hi)) rows = rows.filter (keepDate lo hi) ∧
    (∀ r, r ∈ applyDateFilter (some (lo, hi)) rows ↔
      r ∈ rows ∧ ∃ d, r.date = some d ∧ lo ≤ d ∧ d ≤ hi) := by
  refine ⟨rfl, rfl, fun r => ?_⟩
  rw [show applyDateFilter (some (lo, hi)) rows = rows.filter (keepDate lo hi) from rfl,
    List.mem_filter]
  constructor
  · rintro ⟨hm, hk⟩
    refine ⟨hm, ?_⟩
    unfold keepDate at hk
    rcases hd : r.date with _ | d
    · rw [hd] at hk; cases hk
    · rw [hd] at hk
      simp only [Bool.and_eq_true, decide_eq_true_eq] at hk
      exact ⟨d, rfl, hk.1, hk.2⟩
  · rintro ⟨hm, d, hd, h1, h2⟩
    refine ⟨hm, ?_⟩
    unfold keepDate
    rw [hd]
    simp [h1, h2]

/-- C5 witness: a concrete in-range row passes the concrete date filter. -/
theorem date_range_filter_spec_witness :
    ({ date := some 5 } : Row) ∈ applyDateFilter (some (0, 10)) [{ date := some 5 }] :=
  ((date_range_filter_spec 0 10 [{ date := some 5 }]).2.2 _).mpr
    ⟨by simp, 5, rfl, by decide, by decide⟩

/-! ## Sentiment over time (app.py lines 124-135, generate_charts.py lines 129-159)

`groupby(["date", "sentiment_label"]).size().unstack(fill_value=0)`: pandas
drops every row in which either grouping key is NaN, sorts the group keys
ascending, and the unstacked frame has one row per remaining distinct date and
one column per remaining distinct sentiment label, zero-filled. -/

/-- Insert an integer into a strictly-sorted list, keeping it strictly sorted
and duplicate-free. -/
def insND (x : Int) : List Int → List Int
  | [] => [x]
  | y :: ys => if x < y then x :: y :: ys else if x = y then y :: ys else y :: insND x ys

/-- The distinct values of a list, in ascending order (the sorted index that
pandas builds for group keys). -/
def sortedDistinct (l : List Int) : List Int := l.foldr insND []

/-- The (date, sentiment) key pairs that survive the groupby: rows in which
both keys are present. -/
def presentPairs (rows : List Row) : List (Int × String) :=
  rows.filterMap (fun r =>
    match r.date, r.sentiment_label with
    | some d, some s => some (d, s)
    | _, _ => none)

/-- The index of the sentiment-over-time frame: distinct dates of surviving
rows, ascending. -/
def sentTimeDates (rows : List Row) : List Int :=
  sortedDistinct ((presentPairs rows).map Prod.fst)

/-- The columns of the sentiment-over-time frame: distinct sentiment labels of
surviving rows. -/
def sentTimeLabels (rows : List Row) : List String :=
  ((presentPairs rows).map Prod.snd).dedup

/-- The cell of the frame at (date, label): the number of rows with exactly
that date and exactly that label (zero when no group exists, the unstack
fill value). -/
def sentTimeCount (rows : List Row) (d : Int) (s : String) : Nat :=
  rows.countP (fun r => r.date == some d && r.sentiment_label == some s)

/-- The sentiment-over-time view: one entry per date of the index, each
carrying one (label, count) cell per column. -/
def sent_time (rows : List Row) : List (Int × List (String × Nat)) :=
  (sentTimeDates rows).map
    (fun d => (d, (sentTimeLabels rows).map (fun s => (s, sentTimeCount rows d s))))

lemma mem_insND {x a : Int} {l : List Int} : a ∈ insND x l ↔ a = x ∨ a ∈ l := by
  induction l with
  | nil => simp [insND]
  | cons y ys ih =>
    simp only [insND]
    split
    · simp
    · split
      · rename_i hlt heq
        subst heq
        simp only [List.mem_cons]
        tauto
      · simp only [List.mem_cons, ih]
        tauto

lemma sorted_insND (x : Int) (l : List Int) (h : l.Sorted (· < ·)) :
    (insND x l).Sorted (· < ·) := by
  induction l with
  | nil => simp [insND]
  | cons y ys ih =>
    rw [List.sorted_cons] at h
    simp only [insND]
    split
    · rename_i hlt
      rw [List.sorted_cons]
      refine ⟨?_, by rw [List.sorted_cons]; exact ⟨h.1, h.2⟩⟩
      intro b hb
      rcases List.mem_cons.mp hb with rfl | hbys
      · exact hlt
      · exact lt_trans hlt (h.1 b hbys)
    · split
      · rw [List.sorted_cons]; exact ⟨h.1, h.2⟩
      · rename_i hnlt hne
        rw [List.sorted_cons]
        refine ⟨?_, ih h.2⟩
        intro b hb
        rcases mem_insND.mp hb with rfl | hbys
        · omega
        · exact h.1 b hbys

lemma mem_sortedDistinct {l : List Int} {a : Int} : a ∈ sortedDistinct l ↔ a ∈ l := by
  induction l with
  | nil => simp [sortedDistinct]
  | cons y ys ih =>
    simp only [sortedDistinct, List.foldr_cons, List.mem_cons]
    rw [show List.foldr insND [] ys = sortedDistinct ys from rfl] at *
    rw [mem_insND, ih]

lemma sorted_sortedDistinct (l : List Int) : (sortedDistinct l).Sorted (· < ·) := by
  induction l with
  | nil => simp [sortedDistinct]
  | cons y ys ih => exact sorted_insND y _ ih

/-- Summing an indicator of a pair over a duplicate-free list containing the
second component collapses to an indicator of the first component. -/
lemma sum_indicator_mem {β : Type} [DecidableEq β] (L : List β) (b : β) (c : Bool)
    (hnd : L.Nodup) (hb : b ∈ L) :
    (L.map (fun s => if (c && (b == s)) = true then 1 else 0)).sum
      = if c = true then (1 : Nat) else 0 := by
  induction L with
  | nil => cases hb
  | cons a L ih =>
    rw [List.nodup_cons] at hnd
    rcases List.mem_cons.mp hb with rfl | hbL
    · have hz : (L.map (fun s => if (c && (b == s)) = true then 1 else 0)).sum = 0 := by
        refine List.sum_eq_zero (fun x hx => ?_)
        rcases List.mem_map.mp hx with ⟨s, hs, rfl⟩
        have hbs : (b == s) = false := by
          refine beq_eq_false_iff_ne.mpr (fun heq => ?_)
          exact hnd.1 (heq ▸ hs)
        simp [hbs]
      rw [List.map_cons, List.sum_cons, hz]
      cases c <;> simp
    · have hba : (b == a) = false :=
        beq_eq_false_iff_ne.mpr (fun hba => hnd.1 (hba ▸ hbL))
      rw [List.map_cons, List.sum_cons, ih hnd.2 hbL]
      cases c <;> simp [hba]

/-- Sums of pointwise-added maps split. -/
lemma sum_map_add_nat {β : Type} (L : List β) (f g : β → Nat) :
    (L.map (fun s => f s + g s)).sum = (L.map f).sum + (L.map g).sum := by
  induction L with
  | nil => rfl
  | cons a M ih =>
    simp only [List.map_cons, List.sum_cons, ih]
    omega

/-- Summing per-label pair counts over a duplicate-free label list that covers
every pair yields the count of pairs with the given first component. -/
lemma sum_countP_pairs {α β : Type} [DecidableEq α] [DecidableEq β]
    (l : List (α × β)) (L : List β) (t : α)
    (hnd : L.Nodup) (hall : ∀ p ∈ l, p.2 ∈ L) :
    (L.map (fun s => l.countP (fun p => p.1 == t && p.2 == s))).sum
      = l.countP (fun p => p.1 == t) := by
  induction l with
  | nil => simp
  | cons p l ih =>
    have hall2 : ∀ q ∈ l, q.2 ∈ L := fun q hq => hall q (List.mem_cons_of_mem p hq)
    have hp2 : p.2 ∈ L := hall p (List.mem_cons_self p l)
    simp only [List.countP_cons]
    rw [sum_map_add_nat, ih hall2, sum_indicator_mem L p.2 (p.1 == t) hnd hp2]

lemma sentTimeCount_eq_pairs (rows : List Row) (d : Int) (s : String) :
    sentTimeCount rows d s
      = (presentPairs rows).countP (fun p => p.1 == d && p.2 == s) := by
  induction rows with
  | nil => rfl
  | cons r t ih =>
    simp only [sentTimeCount, presentPairs, List.filterMap_cons, List.countP_cons] at ih ⊢
    rcases hd : r.date with _ | dd <;> rcases hs : r.sentiment_label with _ | ss <;>
      simp [hd, hs, ih, sentTimeCount, presentPairs, List.countP_cons]

lemma countDate_eq_pairs (rows : List Row) (d : Int) :
    rows.countP (fun r => r.date == some d && r.sentiment_label.isSome)
      = (presentPairs rows).countP (fun p => p.1 == d) := by
  induction rows with
  | nil => rfl
  | cons r t ih =>
    simp only [presentPairs, List.filterMap_cons, List.countP_cons] at ih ⊢
    rcases hd : r.date with _ | dd <;> rcases hs : r.sentiment_label with _ | ss <;>
      simp [hd, hs, ih, presentPairs, List.countP_cons]

lemma mem_presentPairs {rows : List Row} {d : Int} {s : String} :
    (d, s) ∈ presentPairs rows ↔
      ∃ r ∈ rows, r.date = some d ∧ r.sentiment_label = some s := by
  rw [presentPairs, List.mem_filterMap]
  constructor
  · rintro ⟨r, hr, hf⟩
    rcases hd : r.date with _ | dd <;> rcases hs : r.sentiment_label with _ | ss <;>
        rw [hd, hs] at hf
    · exact Option.noConfusion hf
    · exact Option.noConfusion hf
    · exact Option.noConfusion hf
    · simp only [Option.some.injEq, Prod.mk.injEq] at hf
      exact ⟨r, hr, by rw [hd, hf.1], by rw [hs, hf.2]⟩
  · rintro ⟨r, hr, hd, hs⟩
    exact ⟨r, hr, by rw [hd, hs]⟩

/-! ### C3 -/

/-- C3 (amended): the sentiment-over-time view has one entry per pair of the
cross product of the distinct dates and the distinct sentiment labels drawn
from rows with BOTH fields present, each cell counting rows matching both and
zero-filled, with dates ascending.  Rows with an absent date are excluded, and
so are rows with an absent sentiment label: per-date cell sums equal the
number of rows with that date AND a present sentiment label. -/
theorem sentiment_over_time_spec (rows : List Row) :
    sent_time rows = (sentTimeDates rows).map
      (fun d => (d, (sentTimeLabels rows).map (fun s => (s, sentTimeCount rows d s)))) ∧
    (sentTimeDates rows).Sorted (· < ·) ∧
    (∀ d, d ∈ sentTimeDates rows ↔
      ∃ r ∈ rows, r.date = some d ∧ r.sentiment_label.isSome = true) ∧
    (∀ d s, sentTimeCount rows d s
      = rows.countP (fun r => r.date == some d && r.sentiment_label == some s)) ∧
    (∀ d, ((sentTimeLabels rows).map (fun s => sentTimeCount rows d s)).sum
      = rows.countP (fun r => r.date == some d && r.sentiment_label.isSome)) := by
  refine ⟨rfl, sorted_sortedDistinct _, ?_, fun d s => rfl, ?_⟩
  · intro d
    rw [sentTimeDates, mem_sortedDistinct, List.mem_map]
    constructor
    · rintro ⟨⟨d, s⟩, hp, rfl⟩
      rcases mem_presentPairs.mp hp with ⟨r, hr, h1, h2⟩
      exact ⟨r, hr, h1, by rw [h2]; rfl⟩
    · rintro ⟨r, hr, h1, h2⟩
      rcases hos : r.sentiment_label with _ | s
      · rw [hos] at h2; cases h2
      · exact ⟨(d, s), mem_presentPairs.mpr ⟨r, hr, h1, hos⟩, rfl⟩
  · intro d
    have hmap : (sentTimeLabels rows).map (fun s => sentTimeCount rows d s)
        = (sentTimeLabels rows).map
            (fun s => (presentPairs rows).countP (fun p => p.1 == d && p.2 == s)) :=
      List.map_congr_left (fun s _ => sentTimeCount_eq_pairs rows d s)
    rw [hmap, sum_countP_pairs (presentPairs rows) (sentTimeLabels rows) d
        (List.nodup_dedup _)
        (fun p hp => List.mem_dedup.mpr (List.mem_map_of_mem Prod.snd hp)),
      countDate_eq_pairs]

/-- C3 witness: on a concrete one-row table the date 0 is in the view index. -/
theorem sentiment_over_time_spec_witness :
    (0 : Int) ∈ sentTimeDates [{ date := some 0, sentiment_label := some "POSITIVE" }] :=
  ((sentiment_over_time_spec
      [{ date := some 0, sentiment_label := some "POSITIVE" }]).2.2.1 0).mpr
    ⟨{ date := some 0, sentiment_label := some "POSITIVE" },
      List.mem_singleton.mpr rfl, rfl, rfl⟩

/-- C3 counterexample: on the concrete table with one (date 0, POSITIVE) row
and one row with date 0 but an absent sentiment label, the view counts at
date 0 summed across all view labels give 1, while the total number of rows
with date 0 is 2 — the per-date sum identity of the claim fails. -/
theorem sentiment_over_time_claim_cex :
    ((sentTimeLabels
        [{ date := some 0, sentiment_label := some "POSITIVE" }, { date := some 0 }]).map
      (fun s => sentTimeCount
        [{ date := some 0, sentiment_label := some "POSITIVE" }, { date := some 0 }] 0 s)).sum
      = 1 ∧
    ([{ date := some 0, sentiment_label := some "POSITIVE" },
      { date := some 0 }] : List Row).countP (fun r => r.date == some 0) = 2 := by
  constructor <;> rfl

/-! ## Sentiment by topic (generate_charts.py lines 74-103)

`pd.crosstab(df["topic_label"], df["sentiment_label"])` drops rows in which
either label is NaN; the result has one row per remaining distinct topic and
one column per remaining distinct sentiment.  `crosstab.div(crosstab.sum(axis=1),
axis=0) * 100` divides each cell by its row sum (the number of surviving rows
with that topic). -/

/-- The (topic, sentiment) pairs that survive the crosstab: rows in which both
labels are present. -/
def topicPairs (rows : List Row) : List (String × String) :=
  rows.filterMap (fun r =>
    match r.topic_label, r.sentiment_label with
    | some t, some s => some (t, s)
    | _, _ => none)

/-- The index of the contingency table: distinct topics of surviving rows. -/
def crosstabTopics (rows : List Row) : List String :=
  ((topicPairs rows).map Prod.fst).dedup

/-- The columns of the contingency table: distinct sentiments of surviving
rows. -/
def crosstabLabels (rows : List Row) : List String :=
  ((topicPairs rows).map Prod.snd).dedup

/-- One cell of the contingency table: surviving rows with exactly this topic
and sentiment. -/
def crosstabCount (rows : List Row) (t s : String) : Nat :=
  (topicPairs rows).countP (fun p => p.1 == t && p.2 == s)

/-- `crosstab.sum(axis=1)`: the row sum for a topic, i.e. the number of
surviving rows with that topic. -/
def crosstabRowSum (rows : List Row) (t : String) : Nat :=
  (topicPairs rows).countP (fun p => p.1 == t)

/-- One cell of `crosstab_pct`: the cell count divided by its row sum, times
100. -/
def crosstab_pct (rows : List Row) (t s : String) : ℚ :=
  (crosstabCount rows t s : ℚ) / (crosstabRowSum rows t : ℚ) * 100

/-- The percentage formula in the words of the claim: the denominator is
`count(topic)`, the number of ALL rows carrying this topic label, whether or
not their sentiment label is present.  Kept separate from `crosstab_pct`
(the code) to compare the two. -/
def claimTopicCount (rows : List Row) (t : String) : Nat :=
  rows.countP (fun r => r.topic_label == some t)

/-- The claimed cell percentage `count(topic, sentiment) / count(topic) * 100`. -/
def claim_pct (rows : List Row) (t s : String) : ℚ :=
  (crosstabCount rows t s : ℚ) / (claimTopicCount rows t : ℚ) * 100

lemma mem_topicPairs {rows : List Row} {t s : String} :
    (t, s) ∈ topicPairs rows ↔
      ∃ r ∈ rows, r.topic_label = some t ∧ r.sentiment_label = some s := by
  rw [topicPairs, List.mem_filterMap]
  constructor
  · rintro ⟨r, hr, hf⟩
    rcases hd : r.topic_label with _ | tt <;> rcases hs : r.sentiment_label with _ | ss <;>
        rw [hd, hs] at hf
    · exact Option.noConfusion hf
    · exact Option.noConfusion hf
    · exact Option.noConfusion hf
    · simp only [Option.some.injEq, Prod.mk.injEq] at hf
      exact ⟨r, hr, by rw [hd, hf.1], by rw [hs, hf.2]⟩
  · rintro ⟨r, hr, hd, hs⟩
    exact ⟨r, hr, by rw [hd, hs]⟩

lemma crosstabRowSum_pos {rows : List Row} {t : String}
    (ht : t ∈ crosstabTopics rows) : 0 < crosstabRowSum rows t := by
  rw [crosstabTopics, List.mem_dedup, List.mem_map] at ht
  rcases ht with ⟨p, hp, rfl⟩
  rw [crosstabRowSum]
  exact List.countP_pos_iff.mpr ⟨p, hp, by simp⟩

lemma crosstab_cells_sum {rows : List Row} {t : String} :
    ((crosstabLabels rows).map (fun s => crosstabCount rows t s)).sum
      = crosstabRowSum rows t := by
  unfold crosstabCount crosstabRowSum
  exact sum_countP_pairs (topicPairs rows) (crosstabLabels rows) t
    (List.nodup_dedup _)
    (fun p hp => List.mem_dedup.mpr (List.mem_map_of_mem Prod.snd hp))

/-! ### C10 -/

/-- C10: every row of the contingency table corresponds to a topic that has at
least one matching (surviving) input row, so its row sum is strictly positive
and the row normalization never divides by zero. -/
theorem crosstab_row_sum_never_zero (rows : List Row) (t : String)
    (ht : t ∈ crosstabTopics rows) :
    (∃ r ∈ rows, r.topic_label = some t ∧ r.sentiment_label.isSome = true) ∧
    0 < crosstabRowSum rows t ∧
    ((crosstabRowSum rows t : ℚ)) ≠ 0 := by
  have hpos := crosstabRowSum_pos ht
  refine ⟨?_, hpos, ?_⟩
  · rw [crosstabTopics, List.mem_dedup, List.mem_map] at ht
    rcases ht with ⟨⟨t, s⟩, hp, rfl⟩
    rcases mem_topicPairs.mp hp with ⟨r, hr, h1, h2⟩
    exact ⟨r, hr, h1, by rw [h2]; rfl⟩
  · exact_mod_cast Nat.pos_iff_ne_zero.mp hpos

/-- C10 witness: in a concrete one-row table, topic A is in the table and its
row sum is nonzero. -/
theorem crosstab_row_sum_never_zero_witness :
    0 < crosstabRowSum
      [{ topic_label := some "A", sentiment_label := some "POSITIVE" }] "A" :=
  (crosstab_row_sum_never_zero
    [{ topic_label := some "A", sentiment_label := some "POSITIVE" }] "A"
    (by decide)).2.1

/-! ### C4 -/

/-- C4 (amended): for every topic present in the contingency table (at least
one row with both labels present), the per-sentiment percentages of the
row-normalized table sum to exactly 100; the normalizer is the crosstab row
sum, the count of rows with that topic AND a present sentiment label, not the
count of all rows with that topic. -/
theorem sentiment_by_topic_pct_sum (rows : List Row) (t : String)
    (ht : t ∈ crosstabTopics rows) :
    ((crosstabLabels rows).map (fun s => crosstab_pct rows t s)).sum = 100 := by
  have hpos := crosstabRowSum_pos ht
  have hRQ : ((crosstabRowSum rows t : ℚ)) ≠ 0 := by
    exact_mod_cast Nat.pos_iff_ne_zero.mp hpos
  have hmap : (crosstabLabels rows).map (fun s => crosstab_pct rows t s)
      = (crosstabLabels rows).map
          (fun s => (crosstabCount rows t s : ℚ) * (100 / (crosstabRowSum rows t : ℚ))) :=
    List.map_congr_left (fun s _ => by unfold crosstab_pct; ring)
  rw [hmap, List.sum_map_mul_right]
  have hcast : ((crosstabLabels rows).map (fun s => (crosstabCount rows t s : ℚ))).sum
      = ((crosstabRowSum rows t : ℚ)) := by
    rw [show (crosstabLabels rows).map (fun s => (crosstabCount rows t s : ℚ))
          = ((crosstabLabels rows).map (fun s => crosstabCount rows t s)).map Nat.cast
        from (List.map_map _ _ _).symm,
      ← Nat.cast_list_sum, crosstab_cells_sum]
  rw [hcast]
  field_simp

/-- C4 witness: on a concrete table the percentages of topic A sum to 100. -/
theorem sentiment_by_topic_pct_sum_witness :
    ((crosstabLabels [{ topic_label := some "A", sentiment_label := some "POSITIVE" },
        { topic_label := some "A", sentiment_label := some "NEGATIVE" }]).map
      (fun s => crosstab_pct
        [{ topic_label := some "A", sentiment_label := some "POSITIVE" },
          { topic_label := some "A", sentiment_label := some "NEGATIVE" }] "A" s)).sum
      = 100 :=
  sentiment_by_topic_pct_sum
    [{ topic_label := some "A", sentiment_label := some "POSITIVE" },
      { topic_label := some "A", sentiment_label := some "NEGATIVE" }] "A" (by decide)

/-- C4 counterexample: on the concrete table with rows (topic A, POSITIVE)
and (topic A, absent sentiment), topic A has two rows, yet the percentages of
the claimed formula `count(topic, sentiment) / count(topic) * 100` sum to 50,
not 100: the code divides by the crosstab row sum (here 1), not by
`count(topic)` (here 2). -/
theorem sentiment_by_topic_claim_cex :
    claimTopicCount [{ topic_label := some "A", sentiment_label := some "POSITIVE" },
      { topic_label := some "A" }] "A" = 2 ∧
    ((crosstabLabels [{ topic_label := some "A", sentiment_label := some "POSITIVE" },
        { topic_label := some "A" }]).map
      (fun s => claim_pct [{ topic_label := some "A", sentiment_label := some "POSITIVE" },
        { topic_label := some "A" }] "A" s)).sum = 50 ∧
    (50 : ℚ) ≠ 100 := by
  refine ⟨rfl, ?_, by norm_num⟩
  have hL : crosstabLabels [{ topic_label := some "A", sentiment_label := some "POSITIVE" },
      { topic_label := some "A" }] = ["POSITIVE"] := by
    simp [crosstabLabels, topicPairs]
  rw [hL]
  have hc : crosstabCount [{ topic_label := some "A", sentiment_label := some "POSITIVE" },
      { topic_label := some "A" }] "A" "POSITIVE" = 1 := by decide
  have hk : claimTopicCount [{ topic_label := some "A", sentiment_label := some "POSITIVE" },
      { topic_label := some "A" }] "A" = 2 := by decide
  simp only [List.map_cons, List.map_nil, List.sum_cons, List.sum_nil, claim_pct, hc, hk]
  norm_num

/-! ### C6 -/

/-- C6: the loader never aborts on bad timestamps.  Each unparseable
`published_at` value yields an absent published_at and an absent date for that
row only (every entry depends solely on its own raw cell); each parseable
value is normalized to a UTC instant by the parser before the calendar date
is derived by dropping time-of-day; and when the `published_at` column is
absent entirely, the date column is an explicit no-value for every row. -/
theorem loader_lenient_dates (parse : String → Option Int)
    (vs : List (Option String)) (n i : Nat) :
    loadDates parse none n = List.replicate n none ∧
    (∀ x ∈ loadDates parse none n, x = none) ∧
    loadPublished parse none = none ∧
    loadPublished parse (some vs) = some (vs.map (fun v => v.bind parse)) ∧
    (loadDates parse (some vs) n)[i]?
      = vs[i]?.map (fun v => (v.bind parse).map dateOfInstant) ∧
    (∀ v, vs[i]? = some (some v) → parse v = none →
      (loadDates parse (some vs) n)[i]? = some none) ∧
    (∀ v t, vs[i]? = some (some v) → parse v = some t →
      (loadDates parse (some vs) n)[i]? = some (some (dateOfInstant t))) := by
  have hmap : (loadDates parse (some vs) n)[i]?
      = vs[i]?.map (fun v => (v.bind parse).map dateOfInstant) := by
    rw [loadDates, List.getElem?_map]
  refine ⟨rfl, fun x hx => List.eq_of_mem_replicate hx, rfl, rfl, hmap, ?_, ?_⟩
  · intro v hv hp
    rw [hmap, hv]
    simp [hp]
  · intro v t hv hp
    rw [hmap, hv]
    simp [hp]

/-- C6 witness: with a concrete lenient parser, the unparseable cell of a
concrete column yields an absent date at its own index while the parseable
cell yields the UTC calendar date at its index. -/
theorem loader_lenient_dates_witness :
    (loadDates (fun s => if s = "good" then some 90000 else none)
      (some [some "bad", some "good"]) 2)[0]? = some none ∧
    (loadDates (fun s => if s = "good" then some 90000 else none)
      (some [some "bad", some "good"]) 2)[1]? = some (some 1) := by
  constructor
  · exact (loader_lenient_dates (fun s => if s = "good" then some 90000 else none)
      [some "bad", some "good"] 2 0).2.2.2.2.2.1 "bad" rfl (by decide)
  · have h := (loader_lenient_dates (fun s => if s = "good" then some 90000 else none)
      [some "bad", some "good"] 2 1).2.2.2.2.2.2 "good" 90000 rfl (by decide)
    rw [show dateOfInstant 90000 = 1 by decide] at h
    exact h

/-! ## Batch renderer (generate_charts.py lines 34-183)

Plot rendering itself (matplotlib) is a trusted external capability; each
plot function is modelled as its guard conditions (the early-return skip
checks of the source, printed notices elided) together with the aggregated
data it would draw, and `main` as the sequence of the five plot calls guarded
by the input-file existence check. -/

/-- Column presence of the loaded frame together with its rows.  The `date`
column always exists after loading; `hasDate` is kept explicit because the
plot guards test for it. -/
structure Frame where
  hasSentiment : Bool
  hasTopic : Bool
  hasDate : Bool
  rows : List Row
deriving DecidableEq, Repr

/-- Outcome of one plot function: chart skipped (console notice, no file) or
a chart file saved with the given plotted data. -/
inductive PlotResult (α : Type) where
  | skipped : PlotResult α
  | saved (data : α) : PlotResult α
deriving DecidableEq, Repr

/-- `value_counts().sort_index()`: one (value, count) pair per distinct
present value, ascending by value; NaN is dropped before counting. -/
def valueCountsSorted (vals : List String) : List (String × Nat) :=
  (List.insertionSort (fun a b => a ≤ b) vals.dedup).map (fun s => (s, vals.count s))

/-- `value_counts().sort_values(ascending=False)`: one (value, count) pair per
distinct present value, descending by count. -/
def valueCountsByCountDesc (vals : List String) : List (String × Nat) :=
  List.insertionSort (fun a b => b.2 ≤ a.2)
    (vals.dedup.map (fun s => (s, vals.count s)))

/-- Plot 1: skipped only when the `sentiment_label` column is missing. -/
def plot_overall_sentiment (f : Frame) : PlotResult (List (String × Nat)) :=
  if f.hasSentiment then
    PlotResult.saved (valueCountsSorted (f.rows.filterMap (fun r => r.sentiment_label)))
  else PlotResult.skipped

/-- Plot 2: skipped only when the `topic_label` column is missing. -/
def plot_topic_distribution (f : Frame) : PlotResult (List (String × Nat)) :=
  if f.hasTopic then
    PlotResult.saved (valueCountsByCountDesc (f.rows.filterMap (fun r => r.topic_label)))
  else PlotResult.skipped

/-- Plot 3: skipped only when `topic_label` or `sentiment_label` is missing;
otherwise the row-normalized contingency table is drawn. -/
def plot_sentiment_by_topic (f : Frame) :
    PlotResult (List (String × List (String × ℚ))) :=
  if f.hasTopic && f.hasSentiment then
    PlotResult.saved ((crosstabTopics f.rows).map
      (fun t => (t, (crosstabLabels f.rows).map (fun s => (s, crosstab_pct f.rows t s)))))
  else PlotResult.skipped

/-- Plot 4: skipped when the `date` column is missing or every date is NaT
(also when the table is empty). -/
def plot_comments_per_day (f : Frame) : PlotResult (List (Int × Nat)) :=
  if f.hasDate && f.rows.any (fun r => r.date.isSome) then
    PlotResult.saved ((sortedDistinct (f.rows.filterMap (fun r => r.date))).map
      (fun d => (d, f.rows.countP (fun r => r.date == some d))))
  else PlotResult.skipped

/-- Plot 5: skipped when `date` is missing or all-NaT or `sentiment_label` is
missing, and also when the grouped frame is empty. -/
def plot_sentiment_over_time (f : Frame) :
    PlotResult (List (Int × List (String × Nat))) :=
  if f.hasDate && f.rows.any (fun r => r.date.isSome) && f.hasSentiment then
    if (sent_time f.rows).isEmpty then PlotResult.skipped
    else PlotResult.saved (sent_time f.rows)
  else PlotResult.skipped

/-- Whether a plot call wrote its chart file. -/
def producedFile {α : Type} : PlotResult α → Bool
  | PlotResult.skipped => false
  | PlotResult.saved _ => true

/-- `main`: raises `FileNotFoundError` when the input CSV is absent; otherwise
runs the five plot functions and reports, per chart filename, whether the
file was produced. -/
def generateChartsMain (inputExists : Bool) (f : Frame) :
    Except String (List (String × Bool)) :=
  if inputExists then
    Except.ok
      [("overall_sentiment.png", producedFile (plot_overall_sentiment f)),
       ("topic_distribution.png", producedFile (plot_topic_distribution f)),
       ("sentiment_by_topic.png", producedFile (plot_sentiment_by_topic f)),
       ("comments_per_day.png", producedFile (plot_comments_per_day f)),
       ("sentiment_over_time.png", producedFile (plot_sentiment_over_time f))]
  else Except.error "Could not find all_comments_with_topics_and_sentiment.csv"

/-- Whether the batch run completed without raising. -/
def ranOk {α : Type} : Except String α → Bool
  | Except.ok _ => true
  | Except.error _ => false

/-! ### C7 -/

/-- C7: the batch script raises exactly when the input file is absent; when
it exists, the run always completes with all five charts attempted, a view
with a missing required column is merely skipped, a view whose column is
present proceeds, and each single-column view depends only on its own column
flag and the rows, so a problem in one view never disturbs the others. -/
theorem batch_error_policy (f : Frame) :
    (∀ e : Bool, ranOk (generateChartsMain e f) = e) ∧
    generateChartsMain true f = Except.ok
      [("overall_sentiment.png", producedFile (plot_overall_sentiment f)),
       ("topic_distribution.png", producedFile (plot_topic_distribution f)),
       ("sentiment_by_topic.png", producedFile (plot_sentiment_by_topic f)),
       ("comments_per_day.png", producedFile (plot_comments_per_day f)),
       ("sentiment_over_time.png", producedFile (plot_sentiment_over_time f))] ∧
    (f.hasSentiment = false → plot_overall_sentiment f = PlotResult.skipped) ∧
    (f.hasTopic = false → plot_topic_distribution f = PlotResult.skipped) ∧
    (f.hasTopic = false ∨ f.hasSentiment = false →
      plot_sentiment_by_topic f = PlotResult.skipped) ∧
    (f.hasDate = false →
      plot_comments_per_day f = PlotResult.skipped ∧
      plot_sentiment_over_time f = PlotResult.skipped) ∧
    (f.hasSentiment = true → plot_overall_sentiment f ≠ PlotResult.skipped) ∧
    (f.hasTopic = true → plot_topic_distribution f ≠ PlotResult.skipped) ∧
    (∀ g : Frame, g.rows = f.rows → g.hasSentiment = f.hasSentiment →
      plot_overall_sentiment g = plot_overall_sentiment f) ∧
    (∀ g : Frame, g.rows = f.rows → g.hasTopic = f.hasTopic →
      plot_topic_distribution g = plot_topic_distribution f) := by
  refine ⟨fun e => by cases e <;> rfl, rfl, ?_, ?_, ?_, ?_, ?_, ?_, ?_, ?_⟩
  · intro h; simp [plot_overall_sentiment, h]
  · intro h; simp [plot_topic_distribution, h]
  · rintro (h | h) <;> simp [plot_sentiment_by_topic, h]
  · intro h
    constructor <;> simp [plot_comments_per_day, plot_sentiment_over_time, h]
  · intro h; simp [plot_overall_sentiment, h]
  · intro h; simp [plot_topic_distribution, h]
  · intro g h1 h2; simp [plot_overall_sentiment, h1, h2]
  · intro g h1 h2; simp [plot_topic_distribution, h1, h2]

/-- C7 witness: on a concrete frame missing the sentiment column, the run
still completes and the sentiment chart alone is skipped. -/
theorem batch_error_policy_witness :
    plot_overall_sentiment
      { hasSentiment := false, hasTopic := true, hasDate := true, rows := [] }
      = PlotResult.skipped :=
  (batch_error_policy
    { hasSentiment := false, hasTopic := true, hasDate := true, rows := [] }).2.2.1 rfl

/-! ### C8 -/

/-- C8 (amended): the soft skip on an all-absent column (or empty table)
holds only for the two date-guarded views.  Comments-per-day and
sentiment-over-time are skipped when every `date` is absent; but
overall-sentiment, topic-distribution and sentiment-by-topic test only
column PRESENCE and, when their columns exist with every value absent, still
save a chart whose plotted data is empty rather than skipping. -/
theorem batch_all_absent_behavior (f : Frame)
    (hd : ∀ r ∈ f.rows, r.date = none)
    (hs : ∀ r ∈ f.rows, r.sentiment_label = none)
    (htp : ∀ r ∈ f.rows, r.topic_label = none) :
    plot_comments_per_day f = PlotResult.skipped ∧
    plot_sentiment_over_time f = PlotResult.skipped ∧
    (f.hasSentiment = true → plot_overall_sentiment f = PlotResult.saved []) ∧
    (f.hasTopic = true → plot_topic_distribution f = PlotResult.saved []) ∧
    (f.hasTopic = true → f.hasSentiment = true →
      plot_sentiment_by_topic f = PlotResult.saved []) := by
  have hany : f.rows.any (fun r => r.date.isSome) = false := by
    rw [List.any_eq_false]
    intro r hr
    rw [hd r hr]
    simp
  have hsfm : f.rows.filterMap (fun r => r.sentiment_label) = [] := by
    rw [List.filterMap_eq_nil_iff]
    exact hs
  have htfm : f.rows.filterMap (fun r => r.topic_label) = [] := by
    rw [List.filterMap_eq_nil_iff]
    exact htp
  have hpairs : topicPairs f.rows = [] := by
    rw [topicPairs, List.filterMap_eq_nil_iff]
    intro r hr
    rcases ht : r.topic_label with _ | tt <;> simp [hs r hr]
  refine ⟨?_, ?_, ?_, ?_, ?_⟩
  · simp [plot_comments_per_day, hany]
  · simp [plot_sentiment_over_time, hany]
  · intro h
    simp [plot_overall_sentiment, h, hsfm, valueCountsSorted]
  · intro h
    simp [plot_topic_distribution, h, htfm, valueCountsByCountDesc, List.insertionSort]
  · intro h1 h2
    simp [plot_sentiment_by_topic, h1, h2, crosstabTopics, hpairs]

/-- C8 witness: on a concrete one-row frame with all values absent, the
sentiment chart is still saved (with empty data). -/
theorem batch_all_absent_behavior_witness :
    plot_overall_sentiment
      { hasSentiment := true, hasTopic := true, hasDate := true,
        rows := [{ date := none }] } = PlotResult.saved [] :=
  (batch_all_absent_behavior
    { hasSentiment := true, hasTopic := true, hasDate := true,
      rows := [{ date := none }] }
    (by intro r hr; simp at hr; rw [hr])
    (by intro r hr; simp at hr; rw [hr])
    (by intro r hr; simp at hr; rw [hr])).2.2.1 rfl

/-- C8 counterexample: the frame whose `sentiment_label` column exists but
holds only absent values produces a saved chart file for the
overall-sentiment view, not the claimed skip. -/
theorem batch_all_absent_claim_cex :
    plot_overall_sentiment
      { hasSentiment := true, hasTopic := true, hasDate := true,
        rows := [{ date := none }] } = PlotResult.saved [] ∧
    plot_overall_sentiment
      { hasSentiment := true, hasTopic := true, hasDate := true,
        rows := [{ date := none }] } ≠ PlotResult.skipped := by
  constructor
  · rfl
  · intro h
    exact PlotResult.noConfusion h

/-! ## Preview columns and CSV download (app.py lines 142-165) -/

/-- The filtered table at column granularity: the header (column names in
frame order) and the rows of cells aligned with it; a cell is `none` for
NaN. -/
structure Table where
  cols : List String
  cells : List (List (Option String))
deriving DecidableEq, Repr

/-- The fixed candidate list of preview columns. -/
def visibleCandidates : List String :=
  ["author", "clean_text", "published_at", "likes", "topic_label",
   "sentiment_label", "sentiment_score"]

/-- `show_cols`: the candidates actually present in the data, in candidate
order; the columns of the on-screen preview table. -/
def show_cols (t : Table) : List String :=
  visibleCandidates.filter (fun c => t.cols.contains c)

/-- One CSV cell: NaN renders as the empty field. -/
def cellOut (c : Option String) : String := c.getD ""

/-- `filtered.to_csv(index=False)` as records: a header row of ALL column
names of the table, then one record per table row, no index column. -/
def to_csv (t : Table) : List (List String) :=
  t.cols :: t.cells.map (fun row => row.map cellOut)

/-! ### C9 -/

/-- C9 (amended): the CSV download serializes the filtered table with a
header row, no index column, and exactly the filtered rows in order -- but
over ALL columns of the filtered table, not the fixed visible subset: the
visible subset restricts only the on-screen preview. -/
theorem csv_export_spec (t : Table) :
    to_csv t = t.cols :: t.cells.map (fun row => row.map cellOut) ∧
    (to_csv t).length = t.cells.length + 1 ∧
    (to_csv t).head? = some t.cols ∧
    (∀ i : Nat, (to_csv t)[i + 1]? = (t.cells[i]?).map (fun row => row.map cellOut)) ∧
    (show_cols t).Sublist visibleCandidates ∧
    (∀ c ∈ show_cols t, c ∈ t.cols) := by
  refine ⟨rfl, by simp [to_csv], rfl, ?_, List.filter_sublist _, ?_⟩
  · intro i
    rw [to_csv, List.getElem?_cons_succ, List.getElem?_map]
  · intro c hc
    have h := (List.mem_filter.mp hc).2
    simpa using h

/-- C9 witness: applying the export to a concrete one-row table yields its
single record at position 1. -/
theorem csv_export_spec_witness :
    (to_csv { cols := ["author", "date"], cells := [[some "x", none]] })[1]?
      = some ["x", ""] :=
  (csv_export_spec { cols := ["author", "date"], cells := [[some "x", none]] }).2.2.2.1 0

/-- C9 counterexample: the loader always adds a `date` column, which is not
in the fixed visible subset; on a concrete filtered table with columns
`author` and `date`, the exported header is both columns while the preview
subset is only `author` -- the download does not restrict to the visible
subset. -/
theorem csv_export_claim_cex :
    (to_csv { cols := ["author", "date"], cells := [[some "x", none]] }).head?
      = some ["author", "date"] ∧
    show_cols { cols := ["author", "date"], cells := [[some "x", none]] } = ["author"] ∧
    (["author", "date"] : List String) ≠ ["author"] := by
  refine ⟨rfl, by decide, by decide⟩
